import Mathlib

/-!
Verification of the gogame ("scraps") core engine: a shallow embedding of the
service layer (settlement engine, crafting state machine, command dispatcher
and event log) together with theorems about its claimed behaviour.

Modelling conventions:
* Go `time.Time` values are modelled as integer nanoseconds (`Int`), matching
  the monotonic arithmetic the code performs (`Sub`, `Add`, `Before`).
  `Duration.Seconds()` followed by `int64(...)` truncates toward zero; at the
  nanosecond level that is `Int.tdiv _ nsPerSec`.
* Go `uint64` counters (scrap, components, costs) are modelled as `Nat`;
  every subtraction in the code is guarded by a `<` check, so no wrap occurs.
* The mutex only serialises calls; each public operation is a pure function
  from (service value, clock instant, command) to (service value, result).
  Within one call Go reads the injected clock several times; a call is
  modelled as happening at a single instant `now`.
* The `any`-typed event payload is modelled as the tagged union of the three
  payload structs the code actually constructs.
-/

namespace GoGame

/-- Nanoseconds per second, the unit conversion used by `time.Duration`. -/
def nsPerSec : Int := 1000000000

/-- Game tuning values (package `config`, struct `Config`). -/
structure Config where
  BaseScrapProduction : Nat
  CraftComponentTechnologyCost : Nat
  CraftComponentCost : Nat
  CraftDurationSecs : Nat
deriving Repr, DecidableEq

/-- The standard game configuration (`config.Default`). -/
def Config.defaultConfig : Config :=
  { BaseScrapProduction := 1
    CraftComponentTechnologyCost := 10
    CraftComponentCost := 10
    CraftDurationSecs := 10 }

/-- An in-progress component craft (package `domain`, struct `CraftJob`). -/
structure CraftJob where
  StartedAt : Int
  FinishesAt : Int
  ScrapCost : Nat
deriving Repr, DecidableEq

/-- The in-memory game state (package `domain`, struct `State`). -/
structure State where
  Scrap : Nat
  Components : Nat
  CraftingUnlocked : Bool
  LastSettledAt : Int
  ActiveCraft : Option CraftJob
deriving Repr, DecidableEq

/-- The service error values (package `service`, `Err*` variables). -/
inductive Err where
  | InsufficientScrap
  | AlreadyUnlocked
  | CraftingLocked
  | CraftInProgress
  | NoActiveCraft
  | CraftNotComplete
deriving Repr, DecidableEq

/-- The closed command set (package `commands`); each carries the caller
correlation id. -/
inductive Command where
  | SyncState (ID : String)
  | Settle (ID : String)
  | UnlockComponentCrafting (ID : String)
  | CraftComponent (ID : String)
  | StartCraftComponent (ID : String)
  | ClaimCraftedComponent (ID : String)
  | CancelCraft (ID : String)
deriving Repr, DecidableEq

/-- The caller-supplied correlation id of a command (`Command.CommandID`). -/
def Command.CommandID : Command → String
  | .SyncState i => i
  | .Settle i => i
  | .UnlockComponentCrafting i => i
  | .CraftComponent i => i
  | .StartCraftComponent i => i
  | .ClaimCraftedComponent i => i
  | .CancelCraft i => i

/-- Event kinds emitted by the game (package `events`, `EventType`
constants). -/
inductive EventType where
  | ScrapSettled
  | CraftingUnlocked
  | ComponentCraftStarted
deriving Repr, DecidableEq

/-- The typed payloads the code puts into the `any`-typed `Event.Data`
field (`ScrapSettledData`, `CraftingUnlockedData`,
`ComponentCraftStartedData`). -/
inductive EventData where
  | scrapSettled (Minted : Nat) (From : Int) (To : Int)
  | craftingUnlocked (Cost : Int)
  | componentCraftStarted (Cost : Int) (FinishesAt : Int)
deriving Repr, DecidableEq

/-- A game event produced by command execution (package `events`,
struct `Event`; the Go field `Type` is rendered `etype`). -/
structure Event where
  ID : Nat
  At : Int
  CommandID : String
  etype : EventType
  Data : EventData
deriving Repr, DecidableEq

/-- The concurrency-safe game service (package `service`, struct
`GameService`, without the mutex and the injected clock, which are
represented by call serialisation and the explicit `now` argument). -/
structure GameService where
  cfg : Config
  state : State
  eventSequence : Nat
  events : List Event
deriving Repr, DecidableEq

/-- The outcome of executing a command (struct `Result`). -/
structure Result where
  state : State
  events : List Event
deriving Repr, DecidableEq

/-- `NewGameService`: empty state with the settlement cursor at the start
time. -/
def NewGameService (cfg : Config) (startTime : Int) : GameService :=
  { cfg := cfg
    state :=
      { Scrap := 0
        Components := 0
        CraftingUnlocked := false
        LastSettledAt := startTime
        ActiveCraft := none }
    eventSequence := 0
    events := [] }

/-- `snapshotLocked`: copy of the state with the craft job structurally
copied (pointer deep-copy in Go). -/
def snapshotLocked (st : State) : State :=
  { st with
    ActiveCraft :=
      match st.ActiveCraft with
      | none => none
      | some ac =>
          some { StartedAt := ac.StartedAt, FinishesAt := ac.FinishesAt, ScrapCost := ac.ScrapCost } }

/-- Output of `settleLocked`: the Go function returns
`(mint, from, s.state.LastSettledAt)` and mutates the state. -/
structure SettleResult where
  minted : Nat
  fromTime : Int
  toTime : Int
  state : State
deriving Repr, DecidableEq

/-- `settleLocked`: mint scrap for the whole seconds elapsed since the last
settlement. `now.Sub(from).Seconds()` followed by the `int64` conversion
truncates toward zero, which is `Int.tdiv` on nanoseconds. -/
def settleLocked (cfg : Config) (now : Int) (st : State) : SettleResult :=
  let fromTime := st.LastSettledAt
  let elapsedSeconds : Int := Int.tdiv (now - fromTime) nsPerSec
  if elapsedSeconds ≤ 0 then
    { minted := 0, fromTime := fromTime, toTime := fromTime, state := st }
  else
    let mint : Nat := elapsedSeconds.toNat * cfg.BaseScrapProduction
    let newCursor : Int := fromTime + elapsedSeconds * nsPerSec
    { minted := mint
      fromTime := fromTime
      toTime := newCursor
      state := { st with Scrap := st.Scrap + mint, LastSettledAt := newCursor } }

/-- `unlockComponentCraftingLocked`: pay the technology cost and set the
unlocked flag. -/
def unlockComponentCraftingLocked (cfg : Config) (st : State) : Option Err × State :=
  if st.CraftingUnlocked then (some .AlreadyUnlocked, st)
  else if st.Scrap < cfg.CraftComponentTechnologyCost then (some .InsufficientScrap, st)
  else
    (none,
     { st with
        Scrap := st.Scrap - cfg.CraftComponentTechnologyCost
        CraftingUnlocked := true })

/-- `craftComponentLocked`: start a craft job, deducting scrap
immediately. -/
def craftComponentLocked (cfg : Config) (now : Int) (st : State) : Option Err × State :=
  if !st.CraftingUnlocked then (some .CraftingLocked, st)
  else if st.ActiveCraft.isSome then (some .CraftInProgress, st)
  else if st.Scrap < cfg.CraftComponentCost then (some .InsufficientScrap, st)
  else
    (none,
     { st with
        Scrap := st.Scrap - cfg.CraftComponentCost
        ActiveCraft :=
          some { StartedAt := now
                 FinishesAt := now + (cfg.CraftDurationSecs : Int) * nsPerSec
                 ScrapCost := cfg.CraftComponentCost } })

/-- `claimCraftedComponentLocked`: grant one component for a finished job;
returns `(componentsGained, error, state)`. -/
def claimCraftedComponentLocked (now : Int) (st : State) : Nat × Option Err × State :=
  match st.ActiveCraft with
  | none => (0, some .NoActiveCraft, st)
  | some job =>
      if now < job.FinishesAt then (0, some .CraftNotComplete, st)
      else (1, none, { st with Components := st.Components + 1, ActiveCraft := none })

/-- `cancelCraftLocked`: refund the recorded scrap cost and clear the job;
the function never reads the clock. -/
def cancelCraftLocked (st : State) : Option Err × State :=
  match st.ActiveCraft with
  | none => (some .NoActiveCraft, st)
  | some job => (none, { st with Scrap := st.Scrap + job.ScrapCost, ActiveCraft := none })

/-- `Execute`: run settlement, append a `ScrapSettled` event when scrap was
minted, apply the command-specific transition, append its event on success,
and return the updated service together with the `Result` and the error.
The Go code threads `s.state`, `s.eventSequence` and `s.events` through
mutation; here they are threaded explicitly. The writes to the command
structs (`Settle.MintedScrap`, `ClaimCraftedComponent.ComponentsGained`)
only echo values already visible in the returned data and are dropped. -/
def Execute (sv : GameService) (now : Int) (cmd : Command) :
    GameService × Result × Option Err :=
  let r := settleLocked sv.cfg now sv.state
  let settledEvent : Event :=
    { ID := sv.eventSequence + 1
      At := now
      CommandID := cmd.CommandID
      etype := .ScrapSettled
      Data := .scrapSettled r.minted r.fromTime r.toTime }
  let seq1 : Nat := if 0 < r.minted then sv.eventSequence + 1 else sv.eventSequence
  let log1 : List Event := if 0 < r.minted then sv.events ++ [settledEvent] else sv.events
  let list1 : List Event := if 0 < r.minted then [settledEvent] else []
  match cmd with
  | .SyncState _ =>
      ({ sv with state := r.state, eventSequence := seq1, events := log1 },
       { state := snapshotLocked r.state, events := list1 }, none)
  | .Settle _ =>
      ({ sv with state := r.state, eventSequence := seq1, events := log1 },
       { state := snapshotLocked r.state, events := list1 }, none)
  | .UnlockComponentCrafting _ =>
      match unlockComponentCraftingLocked sv.cfg r.state with
      | (some e, st2) =>
          ({ sv with state := st2, eventSequence := seq1, events := log1 },
           { state := snapshotLocked st2, events := list1 }, some e)
      | (none, st2) =>
          let unlockEvent : Event :=
            { ID := seq1 + 1
              At := now
              CommandID := cmd.CommandID
              etype := .CraftingUnlocked
              Data := .craftingUnlocked (sv.cfg.CraftComponentTechnologyCost : Int) }
          ({ sv with state := st2, eventSequence := seq1 + 1, events := log1 ++ [unlockEvent] },
           { state := snapshotLocked st2, events := list1 ++ [unlockEvent] }, none)
  | .CraftComponent _ =>
      match craftComponentLocked sv.cfg now r.state with
      | (some e, st2) =>
          ({ sv with state := st2, eventSequence := seq1, events := log1 },
           { state := snapshotLocked st2, events := list1 }, some e)
      | (none, st2) =>
          -- the Go code dereferences s.state.ActiveCraft, non-nil after a
          -- successful craft
          let startEvent : Event :=
            { ID := seq1 + 1
              At := now
              CommandID := cmd.CommandID
              etype := .ComponentCraftStarted
              Data := .componentCraftStarted (sv.cfg.CraftComponentCost : Int)
                        ((st2.ActiveCraft.map CraftJob.FinishesAt).getD 0) }
          ({ sv with state := st2, eventSequence := seq1 + 1, events := log1 ++ [startEvent] },
           { state := snapshotLocked st2, events := list1 ++ [startEvent] }, none)
  | .StartCraftComponent _ =>
      match craftComponentLocked sv.cfg now r.state with
      | (some e, st2) =>
          ({ sv with state := st2, eventSequence := seq1, events := log1 },
           { state := snapshotLocked st2, events := list1 }, some e)
      | (none, st2) =>
          let startEvent : Event :=
            { ID := seq1 + 1
              At := now
              CommandID := cmd.CommandID
              etype := .ComponentCraftStarted
              Data := .componentCraftStarted (sv.cfg.CraftComponentCost : Int)
                        ((st2.ActiveCraft.map CraftJob.FinishesAt).getD 0) }
          ({ sv with state := st2, eventSequence := seq1 + 1, events := log1 ++ [startEvent] },
           { state := snapshotLocked st2, events := list1 ++ [startEvent] }, none)
  | .ClaimCraftedComponent _ =>
      let out := claimCraftedComponentLocked now r.state
      ({ sv with state := out.2.2, eventSequence := seq1, events := log1 },
       { state := snapshotLocked out.2.2, events := list1 }, out.2.1)
  | .CancelCraft _ =>
      match cancelCraftLocked r.state with
      | (e, st2) =>
          ({ sv with state := st2, eventSequence := seq1, events := log1 },
           { state := snapshotLocked st2, events := list1 }, e)

/-- `GetState`: snapshot of the current state under the lock; the clock is
never read and nothing is mutated, which the explicit service component of
the return value records. -/
def GetState (sv : GameService) (now : Int) : State × GameService :=
  (snapshotLocked sv.state, sv)

/-- Total scrap minted by a sequence of settlement calls at the given
clock instants, applied left to right, with the final state. -/
def settleTotal (cfg : Config) (st : State) : List Int → Nat × State
  | [] => (0, st)
  | t :: ts =>
      let r := settleLocked cfg t st
      let rest := settleTotal cfg r.state ts
      (r.minted + rest.1, rest.2)

/-- Modelled from the spec (section 4.3, step 3): the command-specific
transition applied by the dispatcher after settlement, a pure read for
`SyncState` and `Settle`. Used to state that `Execute` is exactly
settlement followed by this transition. -/
def commandTransition (cfg : Config) (now : Int) (cmd : Command) (st : State) :
    Option Err × State :=
  match cmd with
  | .SyncState _ => (none, st)
  | .Settle _ => (none, st)
  | .UnlockComponentCrafting _ => unlockComponentCraftingLocked cfg st
  | .CraftComponent _ => craftComponentLocked cfg now st
  | .StartCraftComponent _ => craftComponentLocked cfg now st
  | .ClaimCraftedComponent _ => (claimCraftedComponentLocked now st).2
  | .CancelCraft _ => cancelCraftLocked st

/-- States of the service reachable from a freshly constructed service by
any sequence of executed commands at arbitrary clock instants. -/
inductive Reachable (cfg : Config) : GameService → Prop where
  | init (startTime : Int) : Reachable cfg (NewGameService cfg startTime)
  | step (sv : GameService) (now : Int) (cmd : Command) :
      Reachable cfg sv → Reachable cfg (Execute sv now cmd).1

/-- Whole seconds contained in the span from `c0` to `t` (zero when `t`
precedes `c0`); the quantity settlement converts into minted scrap. -/
def secsK (c0 t : Int) : Nat := (t - c0).toNat / 1000000000

/-- Fixture: the default configuration with passive production switched
off, as the repository's own claim/cancel tests configure it. -/
def cfgNoProd : Config :=
  { BaseScrapProduction := 0
    CraftComponentTechnologyCost := 10
    CraftComponentCost := 10
    CraftDurationSecs := 10 }

/-- Fixture: a craft job started at instant 0 that finishes 10 seconds
later. -/
def jobDue : CraftJob := { StartedAt := 0, FinishesAt := 10000000000, ScrapCost := 10 }

/-- Fixture: a service holding a craft job that is due at 10 seconds. -/
def svClaimDue : GameService :=
  { cfg := cfgNoProd
    state :=
      { Scrap := 0
        Components := 0
        CraftingUnlocked := false
        LastSettledAt := 0
        ActiveCraft := some jobDue }
    eventSequence := 0
    events := [] }

/-- Fixture: the default configuration with a zero craft duration. -/
def cfgZeroDuration : Config :=
  { BaseScrapProduction := 1
    CraftComponentTechnologyCost := 10
    CraftComponentCost := 10
    CraftDurationSecs := 0 }

/-- Fixture: with a zero craft duration, sync at 20s (minting 20 scrap),
unlock, then start a craft, all at the same instant. -/
def svZeroDurCrafted : GameService :=
  (Execute
    (Execute
      (Execute (NewGameService cfgZeroDuration 0) 20000000000 (.SyncState "sync-1")).1
      20000000000 (.UnlockComponentCrafting "unlock-1")).1
    20000000000 (.CraftComponent "craft-1")).1

/-- Fixture: with the default configuration, sync at 30s (minting 30
scrap), unlock, then start a craft, all at the same instant. -/
def svDefaultCrafted : GameService :=
  (Execute
    (Execute
      (Execute (NewGameService Config.defaultConfig 0) 30000000000 (.SyncState "sync-1")).1
      30000000000 (.UnlockComponentCrafting "unlock-1")).1
    30000000000 (.CraftComponent "craft-1")).1

/-- Fixture: the job `svZeroDurCrafted` holds — started and finishing at
the same instant because the configured duration is zero. -/
def jobZeroDuration : CraftJob :=
  { StartedAt := 20000000000, FinishesAt := 20000000000, ScrapCost := 10 }

/-- Fixture: the job `svDefaultCrafted` holds — started at 30s, due at
40s. -/
def jobDefaultCrafted : CraftJob :=
  { StartedAt := 30000000000, FinishesAt := 40000000000, ScrapCost := 10 }

/-! Helper lemmas about truncating division on nanosecond spans. -/

theorem nsPerSec_pos : (0 : Int) < nsPerSec := by decide

theorem tdiv_ns_nonpos_iff (d : Int) : Int.tdiv d nsPerSec ≤ 0 ↔ d < nsPerSec := by
  constructor
  · intro h
    by_contra hlt
    push_neg at hlt
    have h0 : (0 : Int) ≤ d := le_trans (by decide) hlt
    have h1 : Int.tdiv d nsPerSec = d / nsPerSec := Int.tdiv_eq_ediv h0 (by decide)
    have h2 := Int.ediv_le_ediv (a := nsPerSec) (b := d) (c := nsPerSec) (by decide) hlt
    rw [Int.ediv_self (by decide)] at h2
    omega
  · intro h
    rcases le_or_lt d 0 with hd | hd
    · have h1 : d = -(-d) := by ring
      rw [h1, Int.neg_tdiv]
      have := Int.tdiv_nonneg (a := -d) (b := nsPerSec) (by omega) (by decide)
      omega
    · rw [Int.tdiv_eq_ediv (by omega) (by decide)]
      have := Int.ediv_eq_zero_of_lt (a := d) (b := nsPerSec) (by omega) h
      omega

theorem tdiv_ns_toNat {d : Int} (h0 : 0 ≤ d) :
    Int.tdiv d nsPerSec = ((d.toNat / 1000000000 : Nat) : Int) := by
  rw [Int.tdiv_eq_ediv h0 (by decide), Int.natCast_div, Int.toNat_of_nonneg h0]
  norm_num [nsPerSec]

/-- Characterisation of one settlement call when the cursor sits `k` whole
seconds after a base instant `c0`: the cursor moves to
`max k (secsK c0 t)` whole seconds after `c0` and the difference is
minted. -/
theorem settleLocked_char (cfg : Config) (t c0 : Int) (k : Nat) (st : State)
    (hc : st.LastSettledAt = c0 + (k : Int) * nsPerSec) :
    settleLocked cfg t st =
      { minted := (max k (secsK c0 t) - k) * cfg.BaseScrapProduction
        fromTime := st.LastSettledAt
        toTime := c0 + ((max k (secsK c0 t) : Nat) : Int) * nsPerSec
        state := { st with
          Scrap := st.Scrap + (max k (secsK c0 t) - k) * cfg.BaseScrapProduction
          LastSettledAt := c0 + ((max k (secsK c0 t) : Nat) : Int) * nsPerSec } } := by
  obtain ⟨sc, co, cu, ls, ac⟩ := st
  simp only at hc
  have hns : nsPerSec = (1000000000 : Int) := rfl
  unfold settleLocked
  simp only
  by_cases hle : Int.tdiv (t - ls) nsPerSec ≤ 0
  · rw [if_pos hle]
    have hdlt : t - ls < nsPerSec := (tdiv_ns_nonpos_iff _).1 hle
    have hK : secsK c0 t ≤ k := by
      unfold secsK
      rw [hns] at hdlt hc
      omega
    have hmax : max k (secsK c0 t) = k := Nat.max_eq_left hK
    rw [hmax]
    simp only [Nat.sub_self, Nat.zero_mul, Nat.add_zero, SettleResult.mk.injEq, State.mk.injEq,
      true_and, and_true]
    rw [hns] at hc ⊢
    refine ⟨by omega, by omega⟩
  · rw [if_neg hle]
    push_neg at hle
    have hdns : nsPerSec ≤ t - ls := by
      by_contra hcon
      push_neg at hcon
      exact absurd ((tdiv_ns_nonpos_iff _).2 hcon) (by omega)
    have h0d : (0 : Int) ≤ t - ls := le_trans (by decide) hdns
    have htd := tdiv_ns_toNat h0d
    have hsecs : secsK c0 t = (t - ls).toNat / 1000000000 + k := by
      unfold secsK
      rw [hns] at hc
      omega
    have hmax : max k (secsK c0 t) = (t - ls).toNat / 1000000000 + k := by
      rw [hns] at hdns
      omega
    rw [hmax, htd]
    simp only [SettleResult.mk.injEq, State.mk.injEq, Int.toNat_natCast, Nat.add_sub_cancel,
      true_and, and_true]
    rw [hns] at hc ⊢
    refine ⟨by push_cast; omega, by push_cast; omega⟩

/-! Helper lemmas about folding `max` over a list of instants. -/

theorem le_foldl_max (f : Int → Nat) : ∀ (ts : List Int) (a : Nat),
    a ≤ ts.foldl (fun b t => max b (f t)) a
  | [], a => le_refl a
  | t :: ts, a => le_trans (le_max_left a (f t)) (le_foldl_max f ts (max a (f t)))

theorem foldl_max_le (f : Int → Nat) (M : Nat) : ∀ (ts : List Int) (a : Nat),
    a ≤ M → (∀ t ∈ ts, f t ≤ M) → ts.foldl (fun b t => max b (f t)) a ≤ M
  | [], _, ha, _ => ha
  | t :: ts, a, ha, hts =>
      foldl_max_le f M ts (max a (f t)) (max_le ha (hts t (List.mem_cons_self t ts)))
        (fun u hu => hts u (List.mem_cons_of_mem t hu))

theorem mem_le_foldl_max (f : Int → Nat) : ∀ (ts : List Int) (a : Nat) (u : Int),
    u ∈ ts → f u ≤ ts.foldl (fun b t => max b (f t)) a
  | [], _, _, hu => absurd hu (List.not_mem_nil _)
  | t :: ts, a, u, hu => by
      rcases List.mem_cons.1 hu with h | h
      · subst h
        exact le_trans (le_max_right a (f u)) (le_foldl_max f ts _)
      · exact mem_le_foldl_max f ts (max a (f t)) u h

theorem chain_le_getLast : ∀ (ts : List Int) (h : ts ≠ []),
    List.Chain' (· ≤ ·) ts → ∀ t ∈ ts, t ≤ ts.getLast h
  | [t0], _, _, t, ht => by
      rcases List.mem_singleton.1 ht with rfl
      simp [List.getLast]
  | t0 :: t1 :: ts, _, hch, t, ht => by
      obtain ⟨h01, hch'⟩ := List.chain'_cons.1 hch
      have hlast : (t0 :: t1 :: ts).getLast (by simp) = (t1 :: ts).getLast (by simp) :=
        List.getLast_cons (by simp)
      rcases List.mem_cons.1 ht with rfl | h
      · rw [hlast]
        exact le_trans h01
          (chain_le_getLast (t1 :: ts) (by simp) hch' t1 (List.mem_cons_self _ _))
      · rw [hlast]
        exact chain_le_getLast (t1 :: ts) (by simp) hch' t h

theorem secsK_mono (c0 : Int) {t T : Int} (h : t ≤ T) : secsK c0 t ≤ secsK c0 T :=
  Nat.div_le_div_right (Int.toNat_le_toNat (by omega))

/-- A run of settlement calls advances the cursor to the largest whole
second mark reached and mints exactly the seconds swept, rate-scaled. -/
theorem settleTotal_char (cfg : Config) (ts : List Int) (c0 : Int) (k : Nat) (st : State)
    (hc : st.LastSettledAt = c0 + (k : Int) * nsPerSec) :
    (settleTotal cfg st ts).1 =
      (ts.foldl (fun a t => max a (secsK c0 t)) k - k) * cfg.BaseScrapProduction ∧
    (settleTotal cfg st ts).2.LastSettledAt =
      c0 + ((ts.foldl (fun a t => max a (secsK c0 t)) k : Nat) : Int) * nsPerSec := by
  induction ts generalizing st k with
  | nil => simpa [settleTotal] using hc
  | cons t ts ih =>
      have h1 := settleLocked_char cfg t c0 k st hc
      have hc1 : (settleLocked cfg t st).state.LastSettledAt
          = c0 + ((max k (secsK c0 t) : Nat) : Int) * nsPerSec := by rw [h1]
      obtain ⟨ihTot, ihCur⟩ := ih (max k (secsK c0 t)) (settleLocked cfg t st).state hc1
      have hkk1 : k ≤ max k (secsK c0 t) := le_max_left _ _
      have hk1F : max k (secsK c0 t)
          ≤ ts.foldl (fun a t => max a (secsK c0 t)) (max k (secsK c0 t)) :=
        le_foldl_max _ ts _
      constructor
      · simp only [settleTotal, List.foldl_cons]
        rw [ihTot]
        have hm : (settleLocked cfg t st).minted
            = (max k (secsK c0 t) - k) * cfg.BaseScrapProduction := by rw [h1]
        rw [hm, ← Nat.add_mul]
        congr 1
        omega
      · simp only [settleTotal, List.foldl_cons]
        exact ihCur

/-- C1: accrual is invocation-count independent — for every start state and
every sequence of settlement calls at non-decreasing clock instants ending
at time `T` (not before the cursor), the total amount minted equals
`floor(T - initial cursor in seconds) * accrualRate`, which is also what a
single settlement call at `T` mints. -/
theorem claim_C1_accrual_invocation_count_independent (cfg : Config) (st : State)
    (ts : List Int) (hne : ts ≠ []) (hchain : List.Chain' (· ≤ ·) ts)
    (hT : st.LastSettledAt ≤ ts.getLast hne) :
    (settleTotal cfg st ts).1
        = ((ts.getLast hne - st.LastSettledAt).toNat / 1000000000) * cfg.BaseScrapProduction ∧
    (settleTotal cfg st ts).1 = (settleLocked cfg (ts.getLast hne) st).minted := by
  have hc : st.LastSettledAt = st.LastSettledAt + ((0 : Nat) : Int) * nsPerSec := by simp
  obtain ⟨hTot, _⟩ := settleTotal_char cfg ts st.LastSettledAt 0 st hc
  have hF1 : ts.foldl (fun a t => max a (secsK st.LastSettledAt t)) 0
      ≤ secsK st.LastSettledAt (ts.getLast hne) :=
    foldl_max_le _ _ ts 0 (Nat.zero_le _)
      (fun t ht => secsK_mono st.LastSettledAt (chain_le_getLast ts hne hchain t ht))
  have hF2 : secsK st.LastSettledAt (ts.getLast hne)
      ≤ ts.foldl (fun a t => max a (secsK st.LastSettledAt t)) 0 :=
    mem_le_foldl_max _ ts 0 (ts.getLast hne) (List.getLast_mem hne)
  have hFold : ts.foldl (fun a t => max a (secsK st.LastSettledAt t)) 0
      = secsK st.LastSettledAt (ts.getLast hne) := le_antisymm hF1 hF2
  constructor
  · rw [hTot, hFold, Nat.sub_zero]
    rfl
  · have h1 := settleLocked_char cfg (ts.getLast hne) st.LastSettledAt 0 st hc
    rw [hTot, hFold, Nat.sub_zero, h1]
    simp

/-- Witness for C1: from a fresh state, settling 0.5s then 0.6s later
mints 1 in total, the floor of the 1.1s span. -/
theorem claim_C1_witness :
    (([500000000, 1100000000] : List Int) ≠ []) ∧
    List.Chain' (· ≤ ·) ([500000000, 1100000000] : List Int) ∧
    (NewGameService Config.defaultConfig 0).state.LastSettledAt
      ≤ ([500000000, 1100000000] : List Int).getLast (by decide) ∧
    (settleTotal Config.defaultConfig (NewGameService Config.defaultConfig 0).state
      [500000000, 1100000000]).1 = 1 := by
  refine ⟨by decide, by norm_num [List.chain'_cons], by decide, ?_⟩
  have h := claim_C1_accrual_invocation_count_independent Config.defaultConfig
    (NewGameService Config.defaultConfig 0).state [500000000, 1100000000]
    (by decide) (by norm_num [List.chain'_cons]) (by decide)
  rw [h.1]
  decide

/-- C2: the settlement contract — with `elapsedSeconds` the floor of the
span from the cursor to `now` in seconds, a non-positive value mints 0 and
changes nothing, and a positive value mints `elapsedSeconds * accrualRate`,
adds it to the balance and advances the cursor by exactly that many whole
seconds, all other fields unchanged. -/
theorem claim_C2_settle_contract (cfg : Config) (now : Int) (st : State) :
    settleLocked cfg now st =
      if Int.fdiv (now - st.LastSettledAt) nsPerSec ≤ 0 then
        { minted := 0, fromTime := st.LastSettledAt, toTime := st.LastSettledAt, state := st }
      else
        { minted := (Int.fdiv (now - st.LastSettledAt) nsPerSec).toNat * cfg.BaseScrapProduction
          fromTime := st.LastSettledAt
          toTime := st.LastSettledAt + Int.fdiv (now - st.LastSettledAt) nsPerSec * nsPerSec
          state := { st with
            Scrap := st.Scrap
              + (Int.fdiv (now - st.LastSettledAt) nsPerSec).toNat * cfg.BaseScrapProduction
            LastSettledAt :=
              st.LastSettledAt + Int.fdiv (now - st.LastSettledAt) nsPerSec * nsPerSec } } := by
  have hfe : Int.fdiv (now - st.LastSettledAt) nsPerSec = (now - st.LastSettledAt) / nsPerSec :=
    Int.fdiv_eq_ediv _ (by decide)
  rcases lt_or_le (now - st.LastSettledAt) nsPerSec with hlt | hge
  · have htd : Int.tdiv (now - st.LastSettledAt) nsPerSec ≤ 0 := (tdiv_ns_nonpos_iff _).2 hlt
    have hed : Int.fdiv (now - st.LastSettledAt) nsPerSec ≤ 0 := by
      rw [hfe]
      rcases le_or_lt (now - st.LastSettledAt) 0 with h0 | h0
      · have := Int.ediv_le_ediv (a := now - st.LastSettledAt) (b := 0)
          (c := nsPerSec) (by decide) h0
        simpa using this
      · rw [Int.ediv_eq_zero_of_lt (by omega) hlt]
    rw [if_pos hed]
    unfold settleLocked
    simp only
    rw [if_pos htd]
  · have h0 : (0 : Int) ≤ now - st.LastSettledAt := le_trans (by decide) hge
    have heq : Int.fdiv (now - st.LastSettledAt) nsPerSec
        = Int.tdiv (now - st.LastSettledAt) nsPerSec := by
      rw [hfe, Int.tdiv_eq_ediv h0 (by decide)]
    have hnp : ¬ Int.tdiv (now - st.LastSettledAt) nsPerSec ≤ 0 :=
      fun hcon => absurd ((tdiv_ns_nonpos_iff _).1 hcon) (not_lt.2 hge)
    have hfneg : ¬ Int.fdiv (now - st.LastSettledAt) nsPerSec ≤ 0 := by
      rw [heq]
      exact hnp
    rw [if_neg hfneg, heq]
    unfold settleLocked
    simp only
    rw [if_neg hnp]

/-! Helper lemmas: the command transitions never move the settlement
cursor, and re-settling a just-settled state mints nothing. -/

theorem unlock_cursor_eq (cfg : Config) (st : State) :
    (unlockComponentCraftingLocked cfg st).2.LastSettledAt = st.LastSettledAt := by
  unfold unlockComponentCraftingLocked
  split_ifs <;> rfl

theorem craft_cursor_eq (cfg : Config) (now : Int) (st : State) :
    (craftComponentLocked cfg now st).2.LastSettledAt = st.LastSettledAt := by
  unfold craftComponentLocked
  split_ifs <;> rfl

theorem claim_cursor_eq (now : Int) (st : State) :
    (claimCraftedComponentLocked now st).2.2.LastSettledAt = st.LastSettledAt := by
  unfold claimCraftedComponentLocked
  cases st.ActiveCraft with
  | none => rfl
  | some job =>
      simp only
      split_ifs <;> rfl

theorem cancel_cursor_eq (st : State) :
    (cancelCraftLocked st).2.LastSettledAt = st.LastSettledAt := by
  unfold cancelCraftLocked
  cases st.ActiveCraft <;> rfl

theorem settleLocked_cursor_lt (cfg : Config) (now : Int) (st : State) :
    now - (settleLocked cfg now st).state.LastSettledAt < nsPerSec := by
  have h := settleLocked_char cfg now st.LastSettledAt 0 st (by simp)
  rw [h]
  simp only [Nat.zero_max]
  unfold secsK nsPerSec
  omega

theorem settleLocked_noop_of_lt (cfg : Config) (now : Int) (st : State)
    (h : now - st.LastSettledAt < nsPerSec) :
    (settleLocked cfg now st).minted = 0 ∧ (settleLocked cfg now st).state = st := by
  unfold settleLocked
  simp only
  rw [if_pos ((tdiv_ns_nonpos_iff _).2 h)]
  exact ⟨rfl, rfl⟩

theorem settleLocked_minted_of_cursor_eq (cfg : Config) (now : Int) {st1 st2 : State}
    (h : st1.LastSettledAt = st2.LastSettledAt) :
    (settleLocked cfg now st1).minted = (settleLocked cfg now st2).minted := by
  unfold settleLocked
  simp only
  rw [h]
  split <;> rfl

theorem commandTransition_cursor_eq (cfg : Config) (now : Int) (cmd : Command) (st : State) :
    (commandTransition cfg now cmd st).2.LastSettledAt = st.LastSettledAt := by
  cases cmd <;>
    simp [commandTransition, unlock_cursor_eq, craft_cursor_eq, claim_cursor_eq, cancel_cursor_eq]

/-- Decomposition of `Execute`: its state is the command transition applied
to the settled state, and its error is the transition's error. -/
theorem Execute_state_err_eq (sv : GameService) (now : Int) (cmd : Command) :
    (Execute sv now cmd).1.state
        = (commandTransition sv.cfg now cmd (settleLocked sv.cfg now sv.state).state).2 ∧
    (Execute sv now cmd).2.2
        = (commandTransition sv.cfg now cmd (settleLocked sv.cfg now sv.state).state).1 := by
  cases cmd with
  | SyncState i => exact ⟨rfl, rfl⟩
  | Settle i => exact ⟨rfl, rfl⟩
  | UnlockComponentCrafting i =>
      rcases h : unlockComponentCraftingLocked sv.cfg (settleLocked sv.cfg now sv.state).state
        with ⟨e, st2⟩
      cases e <;> simp [Execute, commandTransition, h]
  | CraftComponent i =>
      rcases h : craftComponentLocked sv.cfg now (settleLocked sv.cfg now sv.state).state
        with ⟨e, st2⟩
      cases e <;> simp [Execute, commandTransition, h]
  | StartCraftComponent i =>
      rcases h : craftComponentLocked sv.cfg now (settleLocked sv.cfg now sv.state).state
        with ⟨e, st2⟩
      cases e <;> simp [Execute, commandTransition, h]
  | ClaimCraftedComponent i => exact ⟨rfl, rfl⟩
  | CancelCraft i =>
      rcases h : cancelCraftLocked (settleLocked sv.cfg now sv.state).state with ⟨e, st2⟩
      simp [Execute, commandTransition, h]

/-- C3: every command first runs the settlement engine once — the state
after `Execute` is the command-specific transition applied to the settled
state, the returned error is the transition's error, and the resulting
state is fully settled at `now` (one more settlement there mints 0), so
every balance precondition check observed the settled balance. -/
theorem claim_C3_settlement_first_every_command (sv : GameService) (now : Int) (cmd : Command) :
    (Execute sv now cmd).1.state
        = (commandTransition sv.cfg now cmd (settleLocked sv.cfg now sv.state).state).2 ∧
    (Execute sv now cmd).2.2
        = (commandTransition sv.cfg now cmd (settleLocked sv.cfg now sv.state).state).1 ∧
    (settleLocked sv.cfg now (Execute sv now cmd).1.state).minted = 0 := by
  have h12 := Execute_state_err_eq sv now cmd
  refine ⟨h12.1, h12.2, ?_⟩
  have hcur : (Execute sv now cmd).1.state.LastSettledAt
      = (settleLocked sv.cfg now sv.state).state.LastSettledAt := by
    rw [h12.1, commandTransition_cursor_eq]
  rw [settleLocked_minted_of_cursor_eq sv.cfg now hcur]
  exact (settleLocked_noop_of_lt sv.cfg now _ (settleLocked_cursor_lt sv.cfg now sv.state)).1

/-- C4: evaluation of the code at the divergence point — claiming a due
craft succeeds (one component is granted) yet no event whatsoever is
appended to the log or returned in the result, although the repository's
own test suite demands a `ComponentCraftClaimed` event here. -/
theorem claim_C4_code_divergence :
    (Execute svClaimDue 10000000000 (Command.ClaimCraftedComponent "claim-1")).2.2 = none ∧
    (Execute svClaimDue 10000000000 (Command.ClaimCraftedComponent "claim-1")).2.1.events = [] ∧
    (Execute svClaimDue 10000000000 (Command.ClaimCraftedComponent "claim-1")).1.events = [] ∧
    (Execute svClaimDue 10000000000 (Command.ClaimCraftedComponent "claim-1")).1.state.Components
      = 1 := by
  refine ⟨rfl, by decide, by decide, by decide⟩

/-! Helper lemmas: each transition leaves the state untouched when it
reports an error. -/

theorem unlock_err_state (cfg : Config) (st : State)
    (h : (unlockComponentCraftingLocked cfg st).1.isSome = true) :
    (unlockComponentCraftingLocked cfg st).2 = st := by
  unfold unlockComponentCraftingLocked at h ⊢
  split_ifs at h ⊢ <;> simp_all

theorem craft_err_state (cfg : Config) (now : Int) (st : State)
    (h : (craftComponentLocked cfg now st).1.isSome = true) :
    (craftComponentLocked cfg now st).2 = st := by
  unfold craftComponentLocked at h ⊢
  split_ifs at h ⊢ <;> simp_all

theorem claim_err_state (now : Int) (st : State)
    (h : (claimCraftedComponentLocked now st).2.1.isSome = true) :
    (claimCraftedComponentLocked now st).2.2 = st := by
  obtain ⟨sc, co, cu, ls, ac⟩ := st
  unfold claimCraftedComponentLocked at h ⊢
  cases ac with
  | none => rfl
  | some job =>
      simp only at h ⊢
      split_ifs at h ⊢ <;> simp_all

theorem cancel_err_state (st : State)
    (h : (cancelCraftLocked st).1.isSome = true) :
    (cancelCraftLocked st).2 = st := by
  obtain ⟨sc, co, cu, ls, ac⟩ := st
  unfold cancelCraftLocked at h ⊢
  cases ac <;> simp_all

theorem commandTransition_err_state (cfg : Config) (now : Int) (cmd : Command) (st : State)
    (h : (commandTransition cfg now cmd st).1.isSome = true) :
    (commandTransition cfg now cmd st).2 = st := by
  cases cmd with
  | SyncState i => rfl
  | Settle i => rfl
  | UnlockComponentCrafting i => exact unlock_err_state cfg st h
  | CraftComponent i => exact craft_err_state cfg now st h
  | StartCraftComponent i => exact craft_err_state cfg now st h
  | ClaimCraftedComponent i => exact claim_err_state now st h
  | CancelCraft i => exact cancel_err_state st h

/-- C5 counterexample: a `StartCraft` at 10s on a fresh (locked) service
fails with `CraftingLocked`, yet the state after the call differs from the
state before it — settlement already minted 10 scrap and moved the
cursor. -/
theorem claim_C5_counterexample :
    (Execute (NewGameService Config.defaultConfig 0) 10000000000
        (Command.CraftComponent "craft-1")).2.2 = some Err.CraftingLocked ∧
    ¬ ((Execute (NewGameService Config.defaultConfig 0) 10000000000
        (Command.CraftComponent "craft-1")).1.state
      = (NewGameService Config.defaultConfig 0).state) := by
  exact ⟨by decide, by decide⟩

/-- C5 (amended): when a command's execution returns an error the failed
transition itself has no side effect — the state after the call is exactly
the pre-state with step-1 settlement applied (which may still have minted
scrap and advanced the cursor). -/
theorem claim_C5_error_leaves_settled_state (sv : GameService) (now : Int) (cmd : Command)
    (e : Err) (h : (Execute sv now cmd).2.2 = some e) :
    (Execute sv now cmd).1.state = (settleLocked sv.cfg now sv.state).state := by
  have h12 := Execute_state_err_eq sv now cmd
  rw [h12.1]
  apply commandTransition_err_state
  rw [← h12.2, h]
  rfl

/-- Witness for C5: the failing `StartCraft` at 10s on a fresh service
lands exactly on the settled state. -/
theorem claim_C5_witness :
    (Execute (NewGameService Config.defaultConfig 0) 10000000000
        (Command.CraftComponent "craft-1")).2.2 = some Err.CraftingLocked ∧
    (Execute (NewGameService Config.defaultConfig 0) 10000000000
        (Command.CraftComponent "craft-1")).1.state
      = (settleLocked Config.defaultConfig 10000000000
          (NewGameService Config.defaultConfig 0).state).state :=
  ⟨by decide,
    claim_C5_error_leaves_settled_state (NewGameService Config.defaultConfig 0) 10000000000
      (Command.CraftComponent "craft-1") Err.CraftingLocked (by decide)⟩

/-- C6: the Start transition checks `FeatureLocked`, then `JobInProgress`,
then `InsufficientResource`, in exactly that precedence order, and on
success deducts the craft cost and creates the job with
`startedAt = now`, `finishesAt = now + duration` and
`scrapCost = craftCost`, leaving the other fields unchanged. -/
theorem claim_C6_start_preconditions (cfg : Config) (now : Int) (st : State) :
    craftComponentLocked cfg now st =
      if st.CraftingUnlocked = false then (some Err.CraftingLocked, st)
      else if st.ActiveCraft.isSome then (some Err.CraftInProgress, st)
      else if st.Scrap < cfg.CraftComponentCost then (some Err.InsufficientScrap, st)
      else (none,
        { st with
            Scrap := st.Scrap - cfg.CraftComponentCost
            ActiveCraft :=
              some { StartedAt := now
                     FinishesAt := now + (cfg.CraftDurationSecs : Int) * nsPerSec
                     ScrapCost := cfg.CraftComponentCost } }) := by
  unfold craftComponentLocked
  cases hcu : st.CraftingUnlocked <;> simp

/-- C7: Cancel refunds exactly the job's recorded scrap cost, clears the
job, and never touches the component count; with no active job it fails
with `NoActiveCraft` and changes nothing. The transition reads no clock at
all, so the same holds at or past the job's finish time. -/
theorem claim_C7_cancel_full_refund (st : State) :
    cancelCraftLocked st =
      (match st.ActiveCraft with
       | none => (some Err.NoActiveCraft, st)
       | some job => (none, { st with Scrap := st.Scrap + job.ScrapCost, ActiveCraft := none })) ∧
    (cancelCraftLocked st).2.Components = st.Components := by
  obtain ⟨sc, co, cu, ls, ac⟩ := st
  cases ac <;> exact ⟨rfl, rfl⟩

/-- C8: Claim succeeds exactly when a job is active and `now` has reached
its finish time, granting one component and clearing the job while leaving
balance and the unlocked flag unchanged; it fails with `NoActiveCraft`
when absent and `JobNotComplete` when premature. -/
theorem claim_C8_claim_transition (now : Int) (st : State) :
    claimCraftedComponentLocked now st =
      (match st.ActiveCraft with
       | none => (0, some Err.NoActiveCraft, st)
       | some job =>
           if now < job.FinishesAt then (0, some Err.CraftNotComplete, st)
           else (1, none, { st with Components := st.Components + 1, ActiveCraft := none })) ∧
    ((claimCraftedComponentLocked now st).2.1 = none ↔
      ∃ job, st.ActiveCraft = some job ∧ job.FinishesAt ≤ now) := by
  obtain ⟨sc, co, cu, ls, ac⟩ := st
  cases ac with
  | none => exact ⟨rfl, by simp [claimCraftedComponentLocked]⟩
  | some job =>
      refine ⟨rfl, ?_⟩
      unfold claimCraftedComponentLocked
      simp only
      split_ifs with hf
      · simp only [Option.some.injEq]
        constructor
        · intro hcon
          exact absurd hcon (by simp)
        · rintro ⟨job2, hj2, hle⟩
          subst hj2
          omega
      · simp only
        constructor
        · intro _
          exact ⟨job, rfl, by omega⟩
        · intro _
          trivial

/-! Helper lemmas tracking the job slot through settlement, the
transitions and `Execute`, and the configuration through `Execute`. -/

theorem settleLocked_activeCraft (cfg : Config) (now : Int) (st : State) :
    (settleLocked cfg now st).state.ActiveCraft = st.ActiveCraft := by
  unfold settleLocked
  simp only
  split <;> rfl

theorem unlock_activeCraft (cfg : Config) (st : State) :
    (unlockComponentCraftingLocked cfg st).2.ActiveCraft = st.ActiveCraft := by
  unfold unlockComponentCraftingLocked
  split_ifs <;> rfl

theorem craft_activeCraft_cases (cfg : Config) (now : Int) (st : State) :
    (craftComponentLocked cfg now st).2.ActiveCraft = st.ActiveCraft ∨
    (craftComponentLocked cfg now st).2.ActiveCraft =
      some { StartedAt := now
             FinishesAt := now + (cfg.CraftDurationSecs : Int) * nsPerSec
             ScrapCost := cfg.CraftComponentCost } := by
  unfold craftComponentLocked
  split_ifs <;> simp

theorem claim_activeCraft_cases (now : Int) (st : State) :
    (claimCraftedComponentLocked now st).2.2.ActiveCraft = st.ActiveCraft ∨
    (claimCraftedComponentLocked now st).2.2.ActiveCraft = none := by
  obtain ⟨sc, co, cu, ls, ac⟩ := st
  unfold claimCraftedComponentLocked
  cases ac with
  | none => exact Or.inl rfl
  | some job =>
      simp only
      split_ifs <;> simp

theorem cancel_activeCraft_cases (st : State) :
    (cancelCraftLocked st).2.ActiveCraft = st.ActiveCraft ∨
    (cancelCraftLocked st).2.ActiveCraft = none := by
  obtain ⟨sc, co, cu, ls, ac⟩ := st
  unfold cancelCraftLocked
  cases ac <;> simp

theorem commandTransition_activeCraft_cases (cfg : Config) (now : Int) (cmd : Command)
    (st : State) :
    (commandTransition cfg now cmd st).2.ActiveCraft = st.ActiveCraft ∨
    (commandTransition cfg now cmd st).2.ActiveCraft = none ∨
    (commandTransition cfg now cmd st).2.ActiveCraft =
      some { StartedAt := now
             FinishesAt := now + (cfg.CraftDurationSecs : Int) * nsPerSec
             ScrapCost := cfg.CraftComponentCost } := by
  cases cmd with
  | SyncState i => exact Or.inl rfl
  | Settle i => exact Or.inl rfl
  | UnlockComponentCrafting i => exact Or.inl (unlock_activeCraft cfg st)
  | CraftComponent i =>
      rcases craft_activeCraft_cases cfg now st with h | h
      · exact Or.inl h
      · exact Or.inr (Or.inr h)
  | StartCraftComponent i =>
      rcases craft_activeCraft_cases cfg now st with h | h
      · exact Or.inl h
      · exact Or.inr (Or.inr h)
  | ClaimCraftedComponent i =>
      rcases claim_activeCraft_cases now st with h | h
      · exact Or.inl h
      · exact Or.inr (Or.inl h)
  | CancelCraft i =>
      rcases cancel_activeCraft_cases st with h | h
      · exact Or.inl h
      · exact Or.inr (Or.inl h)

theorem Execute_activeCraft_cases (sv : GameService) (now : Int) (cmd : Command) :
    (Execute sv now cmd).1.state.ActiveCraft = sv.state.ActiveCraft ∨
    (Execute sv now cmd).1.state.ActiveCraft = none ∨
    (Execute sv now cmd).1.state.ActiveCraft =
      some { StartedAt := now
             FinishesAt := now + (sv.cfg.CraftDurationSecs : Int) * nsPerSec
             ScrapCost := sv.cfg.CraftComponentCost } := by
  have h := (Execute_state_err_eq sv now cmd).1
  rw [h]
  have hs := settleLocked_activeCraft sv.cfg now sv.state
  rcases commandTransition_activeCraft_cases sv.cfg now cmd
    (settleLocked sv.cfg now sv.state).state with hc | hc | hc
  · rw [hc, hs]
    exact Or.inl rfl
  · exact Or.inr (Or.inl hc)
  · exact Or.inr (Or.inr hc)

theorem Execute_cfg_eq (sv : GameService) (now : Int) (cmd : Command) :
    (Execute sv now cmd).1.cfg = sv.cfg := by
  cases cmd with
  | SyncState i => rfl
  | Settle i => rfl
  | UnlockComponentCrafting i =>
      rcases h : unlockComponentCraftingLocked sv.cfg (settleLocked sv.cfg now sv.state).state
        with ⟨e, st2⟩
      cases e <;> simp [Execute, h]
  | CraftComponent i =>
      rcases h : craftComponentLocked sv.cfg now (settleLocked sv.cfg now sv.state).state
        with ⟨e, st2⟩
      cases e <;> simp [Execute, h]
  | StartCraftComponent i =>
      rcases h : craftComponentLocked sv.cfg now (settleLocked sv.cfg now sv.state).state
        with ⟨e, st2⟩
      cases e <;> simp [Execute, h]
  | ClaimCraftedComponent i => rfl
  | CancelCraft i =>
      rcases h : cancelCraftLocked (settleLocked sv.cfg now sv.state).state with ⟨e, st2⟩
      simp [Execute, h]

theorem Reachable_cfg {cfg : Config} {sv : GameService} (h : Reachable cfg sv) :
    sv.cfg = cfg := by
  induction h with
  | init t => rfl
  | step sv now cmd hr ih =>
      rw [Execute_cfg_eq]
      exact ih

/-- C9 counterexample: with `craftDurationSeconds = 0` a reachable state
holds a job whose `finishesAt` equals its `startedAt`, refuting the strict
inequality the claim asserts for every configuration. -/
theorem claim_C9_counterexample :
    Reachable cfgZeroDuration svZeroDurCrafted ∧
    svZeroDurCrafted.state.ActiveCraft = some jobZeroDuration ∧
    ¬ (jobZeroDuration.StartedAt < jobZeroDuration.FinishesAt) := by
  refine ⟨?_, by decide, by decide⟩
  exact Reachable.step _ _ _ (Reachable.step _ _ _ (Reachable.step _ _ _ (Reachable.init 0)))

/-- C9 (amended): in every reachable state a present job satisfies
`startedAt ≤ finishesAt`, and strictly `startedAt < finishesAt` whenever
the configured craft duration is positive; at most one job exists at a
time by construction (the slot is a single optional value). -/
theorem claim_C9_job_duration_invariant (cfg : Config) (sv : GameService)
    (hr : Reachable cfg sv) :
    ∀ j : CraftJob, sv.state.ActiveCraft = some j →
      j.StartedAt ≤ j.FinishesAt ∧
      (0 < cfg.CraftDurationSecs → j.StartedAt < j.FinishesAt) := by
  induction hr with
  | init t =>
      intro j hj
      exact absurd hj (by simp [NewGameService])
  | step sv now cmd hr ih =>
      intro j hj
      rcases Execute_activeCraft_cases sv now cmd with h | h | h
      · rw [h] at hj
        exact ih j hj
      · rw [h] at hj
        exact absurd hj (by simp)
      · rw [h] at hj
        have hj2 := Option.some.inj hj
        have hcfg : sv.cfg = cfg := Reachable_cfg hr
        rw [hcfg] at hj2
        subst hj2
        have hns : nsPerSec = (1000000000 : Int) := rfl
        constructor
        · simp only [hns]
          omega
        · intro hdur
          simp only [hns]
          omega

/-- Witness for C9 (amended): a reachable default-configuration state with
an active job whose finish time strictly follows its start time. -/
theorem claim_C9_witness :
    Reachable Config.defaultConfig svDefaultCrafted ∧
    svDefaultCrafted.state.ActiveCraft = some jobDefaultCrafted ∧
    (jobDefaultCrafted.StartedAt ≤ jobDefaultCrafted.FinishesAt ∧
      (0 < Config.defaultConfig.CraftDurationSecs →
        jobDefaultCrafted.StartedAt < jobDefaultCrafted.FinishesAt)) := by
  have hr : Reachable Config.defaultConfig svDefaultCrafted :=
    Reachable.step _ _ _ (Reachable.step _ _ _ (Reachable.step _ _ _ (Reachable.init 0)))
  exact ⟨hr, by decide,
    claim_C9_job_duration_invariant Config.defaultConfig svDefaultCrafted hr
      jobDefaultCrafted (by decide)⟩

theorem snapshotLocked_eq (st : State) : snapshotLocked st = st := by
  obtain ⟨sc, co, cu, ls, ac⟩ := st
  cases ac <;> rfl

/-- C10: `GetState` is a pure read — for every clock instant it returns
the stored state verbatim (no settlement is applied, so the reported
balance reflects only previously settled accrual) and leaves the whole
service, including its event log, untouched. -/
theorem claim_C10_getstate_pure (sv : GameService) (now : Int) :
    GetState sv now = (sv.state, sv) := by
  unfold GetState
  rw [snapshotLocked_eq]

end GoGame
